import Mathlib

/-!
Shallow embedding of the descord gateway runtime
(`src/ws/websocket_manager.rs`): the permission resolver
(`WsManager::fetch_permissions`), the event dispatcher arms for
MessageCreate and MessageDelete (`WsManager::dispatch_event`), the
connection handshake and read-loop sequence update
(`WsManager::connect`), the heartbeat task
(`WsManager::heartbeat_start`) and the resume procedure
(`WsManager::reconnect`).  Permission bitmasks are 64-bit unsigned
integers, embedded as `Nat` with explicit 64-bit complement where the
code uses `!deny` on a `u64`.
-/

namespace Descord

/-- The all-ones 64-bit mask, used to embed `u64` bitwise complement. -/
def mask64 : Nat := 2 ^ 64 - 1

/-- 64-bit bitwise complement `!x` on a `u64`, embedded on `Nat`. -/
def compl64 (x : Nat) : Nat := Nat.xor mask64 x

/-- Modelled from the spec: the module `consts::permissions` is not under
`src/`; the spec fixes `ADMINISTRATOR` as "a single sentinel bit" of the
64-bit permission bitmask.  We use one fixed bit. -/
def ADMINISTRATOR : Nat := 8

/-- A channel permission overwrite (`channel.permission_overwrites` entry):
`overwrite_type` 0 targets a role, 1 targets a member; `allow` and `deny`
are the already-parsed `u64` bitmasks (the code parses them from decimal
strings). -/
structure Overwrite where
  overwrite_type : Nat
  id : String
  allow : Nat
  deny : Nat
deriving DecidableEq, Repr

/-- The fields of a channel read by the dispatcher and the permission
resolver. -/
structure Channel where
  guild_id : Option String
  permission_overwrites : Option (List Overwrite)
deriving DecidableEq, Repr

/-- The fields of a guild read by the permission resolver.
`default_role_permissions` is the result of the REST call
`guild.default_role()` (`none` embeds a failed fetch, which the code
unwraps fatally); `roles` is the lookup table behind
`guild.fetch_role(role_id)` (a missing role embeds a failed fetch, which
the code skips). -/
structure Guild where
  owner_id : String
  default_role_permissions : Option Nat
  roles : List (String × Nat)
deriving DecidableEq, Repr

/-- `guild.fetch_role(role_id).await.ok()`: look the role's permission
bitmask up; `none` when the fetch fails. -/
def Guild.fetch_role (g : Guild) (rid : String) : Option Nat :=
  (g.roles.find? (fun p => p.1 == rid)).map Prod.snd

/-- One overwrite application step from the loop body of
`WsManager::fetch_permissions`: a member-type overwrite matching the
member id, or a role-type overwrite matching a held role, clears its
deny bits then sets its allow bits. -/
def applyOverwrite (roles : List String) (id : String) (acc : Nat)
    (ow : Overwrite) : Nat :=
  if ow.overwrite_type = 1 ∧ ow.id = id then
    (acc &&& compl64 ow.deny) ||| ow.allow
  else if ow.overwrite_type = 0 ∧ ow.id ∈ roles then
    (acc &&& compl64 ow.deny) ||| ow.allow
  else
    acc

/-- `WsManager::fetch_permissions(roles, id, guild, channel)`:
owner short-circuit, default-role base, OR of held-role bitmasks
(unfetchable roles skipped), administrator short-circuit, then the
channel overwrites applied in list order.  `none` embeds the fatal
unwrap on a failed default-role fetch. -/
def fetch_permissions (roles : List String) (id : String) (guild : Guild)
    (channel : Option Channel) : Option Nat :=
  if guild.owner_id = id then
    some ADMINISTRATOR
  else
    match guild.default_role_permissions with
    | none => none
    | some p0 =>
      let base := roles.foldl (fun acc rid =>
        match guild.fetch_role rid with
        | some p => acc ||| p
        | none => acc) p0
      if base &&& ADMINISTRATOR = ADMINISTRATOR then
        some ADMINISTRATOR
      else
        some (match channel with
          | none => base
          | some ch =>
            match ch.permission_overwrites with
            | none => base
            | some ows => ows.foldl (applyOverwrite roles id) base)

/-- C1: member not the owner, default-role permissions `P0`, one held
role with permissions `P1`, `(P0 ||| P1)` without the ADMINISTRATOR bit,
and a channel whose overwrite list is a role-type overwrite for that
role with deny `D` and allow `A`: resolution returns
`((P0 ||| P1) &&& compl64 D) ||| A`. -/
theorem fetch_permissions_role_overwrite
    (P0 P1 D A : Nat) (mid rid : String) (g : Guild) (ch : Channel)
    (hown : g.owner_id ≠ mid)
    (hdef : g.default_role_permissions = some P0)
    (hroles : g.roles = [(rid, P1)])
    (hadmin : (P0 ||| P1) &&& ADMINISTRATOR ≠ ADMINISTRATOR)
    (hov : ch.permission_overwrites = some [⟨0, rid, A, D⟩]) :
    fetch_permissions [rid] mid g (some ch)
      = some (((P0 ||| P1) &&& compl64 D) ||| A) := by
  simp [fetch_permissions, Guild.fetch_role, applyOverwrite, hown, hdef,
    hroles, hadmin, hov]

theorem fetch_permissions_role_overwrite_witness :
    fetch_permissions ["r"] "m"
        ⟨"o", some 1, [("r", 2)]⟩
        (some ⟨none, some [⟨0, "r", 4, 2⟩]⟩)
      = some (((1 ||| 2) &&& compl64 2) ||| 4) :=
  fetch_permissions_role_overwrite 1 2 2 4 "m" "r"
    ⟨"o", some 1, [("r", 2)]⟩ ⟨none, some [⟨0, "r", 4, 2⟩]⟩
    (by decide) rfl rfl (by decide) rfl

/-- The fields of a full message record (`MessageResponse` data) read by
the MessageCreate arm of `WsManager::dispatch_event`. -/
structure Msg where
  id : String
  channel_id : String
  content : String
  member_roles : Option (List String)
  author_id : Option String
deriving DecidableEq, Repr

/-- The minimal `DeletedMessageResponse` data of a MessageDelete frame. -/
structure DeletedMsg where
  message_id : String
  channel_id : String
deriving DecidableEq, Repr

/-- The event tags of `handlers::events::Event` used by the modelled
dispatcher arms. -/
inductive Ev
  | messageCreate
  | messageDelete
  | messageDeleteRaw
deriving DecidableEq, Repr

/-- Payload handed to a generic event handler: the full cached message or
the minimal delete record. -/
inductive CallData
  | full (m : Msg)
  | minimal (d : DeletedMsg)
deriving DecidableEq, Repr

/-- A registered prefix command.  Modelled from the spec where the code
leaves `src/`: `consts::permissions::parse` (not under `src/`) turns
each declared permission name into its bitmask, so `permissions` holds
the already-parsed bitmasks that the dispatcher ORs together;
`bodyError` is the command body's result when invoked (`some e` embeds
a failing body whose description `e` is sent as a reply). -/
structure Command where
  permissions : List Nat
  bodyError : Option String
deriving DecidableEq, Repr

/-- `commands.get(name)` on the registry map. -/
def lookupCmd (commands : List (String × Command)) (name : String) :
    Option Command :=
  (commands.find? (fun p => p.1 == name)).map Prod.snd

/-- The REST collaborator used by the MessageCreate arm:
`fetch_channel` and `fetch_guild`, `none` embedding a failed call
(which the code unwraps fatally). -/
structure Env where
  fetchChannel : String → Option Channel
  fetchGuild : String → Option Guild

/-- The Message Cache, modelled from the spec (the `cache` module is not
under `src/`): a key-value store keyed by message id; `put` inserts or
overwrites, `pop` removes and returns.  Capacity eviction is not
exercised by the modelled arms. -/
abbrev MsgCache := List (String × Msg)

/-- `MESSAGE_CACHE.put(id, msg)`. -/
def cachePut (c : MsgCache) (k : String) (v : Msg) : MsgCache :=
  (k, v) :: List.filter (fun p => p.1 != k) c

/-- `MESSAGE_CACHE.pop(id)`: the removed entry (if any) and the remaining
cache. -/
def cachePop (c : MsgCache) (k : String) : Option Msg × MsgCache :=
  match List.find? (fun p => p.1 == k) c with
  | some p => (some p.2, List.filter (fun q => q.1 != k) c)
  | none => (none, c)

/-- `message_data.data.content.split(' ').next()`: the first
space-delimited token of the content — the prefix before the first
space character (always present, possibly empty). -/
def firstToken (content : String) : String :=
  ⟨content.data.takeWhile (fun c => c ≠ ' ')⟩

/-- The command's required-permission bitmask: OR of its declared
permission bits. -/
def requiredPermissions (c : Command) : Nat :=
  c.permissions.foldl (· ||| ·) 0

/-- The fixed denial reply text. -/
def denialMessage : String :=
  "You are missing the required permissions for running this command"

/-- Observable outcome of one dispatched MessageCreate/MessageDelete:
the cache afterwards, the in-channel replies sent (message id, channel
id, text), whether a command body was invoked, and the generic handler
calls made (also the spawned raw-delete call). -/
structure DispatchEffects where
  cacheAfter : MsgCache
  replies : List (String × String × String)
  commandInvoked : Bool
  calls : List (Ev × CallData)
deriving DecidableEq, Repr

/-- The tail of the MessageCreate arm when a matched command is run:
invoke the body; on failure reply in-channel with the failure's
description; return without generic dispatch. -/
def runCommandBody (cmd : Command) (cache' : MsgCache) (m : Msg) :
    DispatchEffects :=
  { cacheAfter := cache'
    replies := match cmd.bodyError with
      | some e => [(m.id, m.channel_id, e)]
      | none => []
    commandInvoked := true
    calls := [] }

/-- The `Event::MessageCreate` arm of `WsManager::dispatch_event`
followed by the generic handler invocation at the end of the function:
cache the message; if the first token matches a registered command,
check its required permissions (fetching channel, guild and the
member's effective permissions when non-zero), reply with the denial
and stop on insufficient permissions, otherwise run the body and stop;
with no command match fall through to the generic MessageCreate
handler (when registered).  `registered e` says a generic handler is
registered for `e`; `none` embeds a fatal unwrap (failed fetch, absent
member or author). -/
def dispatchMessageCreate (env : Env) (commands : List (String × Command))
    (registered : Ev → Bool) (cache : MsgCache) (m : Msg) :
    Option DispatchEffects :=
  let cache' := cachePut cache m.id m
  match lookupCmd commands (firstToken m.content) with
  | some cmd =>
    let required := requiredPermissions cmd
    if required ≠ 0 then
      match env.fetchChannel m.channel_id with
      | none => none
      | some channel =>
        match channel.guild_id with
        | none => none
        | some gid =>
          match env.fetchGuild gid with
          | none => none
          | some guild =>
            match m.member_roles, m.author_id with
            | some rs, some aid =>
              match fetch_permissions rs aid guild (some channel) with
              | none => none
              | some perms =>
                if perms &&& required ≠ required then
                  some { cacheAfter := cache'
                         replies := [(m.id, m.channel_id, denialMessage)]
                         commandInvoked := false
                         calls := [] }
                else
                  some (runCommandBody cmd cache' m)
            | _, _ => none
    else
      some (runCommandBody cmd cache' m)
  | none =>
    some { cacheAfter := cache'
           replies := []
           commandInvoked := false
           calls := if registered .messageCreate
             then [(.messageCreate, .full m)] else [] }

/-- The `Event::MessageDelete` arm of `WsManager::dispatch_event`
followed by the generic handler invocation: pop the id from the cache;
when present, spawn the raw-delete handler (if registered) with the
minimal record and dispatch the cached full message to the generic
MessageDelete handler; when absent, dispatch only the raw-delete
handler with the minimal record. -/
def dispatchMessageDelete (registered : Ev → Bool) (cache : MsgCache)
    (d : DeletedMsg) : DispatchEffects :=
  match cachePop cache d.message_id with
  | (some cached, cache') =>
    { cacheAfter := cache'
      replies := []
      commandInvoked := false
      calls :=
        (if registered .messageDeleteRaw
          then [(Ev.messageDeleteRaw, CallData.minimal d)] else [])
        ++ (if registered .messageDelete
          then [(Ev.messageDelete, CallData.full cached)] else []) }
  | (none, _) =>
    { cacheAfter := cache
      replies := []
      commandInvoked := false
      calls := if registered .messageDeleteRaw
        then [(Ev.messageDeleteRaw, CallData.minimal d)] else [] }

/-- C2: a MessageCreate whose first token matches a registered command
with a non-zero required-permission bitmask, where the member's
effective permissions miss a required bit, sends exactly one in-channel
denial reply and never invokes the command body. -/
theorem command_denied_without_invocation
    (env : Env) (commands : List (String × Command)) (registered : Ev → Bool)
    (cache : MsgCache) (m : Msg) (cmd : Command) (ch : Channel)
    (gid : String) (g : Guild) (rs : List String) (aid : String) (perms : Nat)
    (hcmd : lookupCmd commands (firstToken m.content) = some cmd)
    (hreq : requiredPermissions cmd ≠ 0)
    (hch : env.fetchChannel m.channel_id = some ch)
    (hgid : ch.guild_id = some gid)
    (hg : env.fetchGuild gid = some g)
    (hroles : m.member_roles = some rs)
    (haid : m.author_id = some aid)
    (hperm : fetch_permissions rs aid g (some ch) = some perms)
    (hins : perms &&& requiredPermissions cmd ≠ requiredPermissions cmd) :
    dispatchMessageCreate env commands registered cache m =
      some { cacheAfter := cachePut cache m.id m
             replies := [(m.id, m.channel_id, denialMessage)]
             commandInvoked := false
             calls := [] } := by
  simp [dispatchMessageCreate, hcmd, hreq, hch, hgid, hg, hroles, haid,
    hperm, hins]

theorem command_denied_without_invocation_witness :
    dispatchMessageCreate
        ⟨fun _ => some ⟨some "g1", none⟩, fun _ => some ⟨"owner", some 1, []⟩⟩
        [("ban", ⟨[2], none⟩)] (fun _ => true) []
        ⟨"mid1", "cid1", "ban x", some [], some "a1"⟩ =
      some { cacheAfter := cachePut [] "mid1"
               ⟨"mid1", "cid1", "ban x", some [], some "a1"⟩
             replies := [("mid1", "cid1", denialMessage)]
             commandInvoked := false
             calls := [] } :=
  command_denied_without_invocation
    ⟨fun _ => some ⟨some "g1", none⟩, fun _ => some ⟨"owner", some 1, []⟩⟩
    [("ban", ⟨[2], none⟩)] (fun _ => true) []
    ⟨"mid1", "cid1", "ban x", some [], some "a1"⟩
    ⟨[2], none⟩ ⟨some "g1", none⟩ "g1" ⟨"owner", some 1, []⟩ [] "a1" 1
    (by decide) (by decide) rfl rfl rfl rfl rfl (by decide) (by decide)

/-- C8: when the first token of a MessageCreate matches a registered
command, the dispatcher returns without a generic MessageCreate handler
call; when no command matches, it falls through to the generic handler
(invoked when registered). -/
theorem messageCreate_command_short_circuit
    (env : Env) (commands : List (String × Command)) (registered : Ev → Bool)
    (cache : MsgCache) (m : Msg) :
    (∀ cmd, lookupCmd commands (firstToken m.content) = some cmd →
      ∀ r, dispatchMessageCreate env commands registered cache m = some r →
        r.calls = [])
    ∧ (lookupCmd commands (firstToken m.content) = none →
      dispatchMessageCreate env commands registered cache m =
        some { cacheAfter := cachePut cache m.id m
               replies := []
               commandInvoked := false
               calls := if registered .messageCreate
                 then [(.messageCreate, .full m)] else [] }) := by
  constructor
  · intro cmd hcmd r hr
    simp only [dispatchMessageCreate, hcmd] at hr
    repeat' split at hr
    all_goals first
      | (injection hr with hr; subst hr; rfl)
      | cases hr
  · intro hnone
    simp [dispatchMessageCreate, hnone]

theorem messageCreate_command_short_circuit_witness :
    dispatchMessageCreate ⟨fun _ => none, fun _ => none⟩ [] (fun _ => true)
        [] ⟨"mid2", "cid2", "hello there", none, none⟩ =
      some { cacheAfter := cachePut [] "mid2"
               ⟨"mid2", "cid2", "hello there", none, none⟩
             replies := []
             commandInvoked := false
             calls := if (fun (_ : Ev) => true) Ev.messageCreate
               then [(Ev.messageCreate,
                 CallData.full ⟨"mid2", "cid2", "hello there", none, none⟩)]
               else [] } :=
  (messageCreate_command_short_circuit ⟨fun _ => none, fun _ => none⟩ []
    (fun _ => true) [] ⟨"mid2", "cid2", "hello there", none, none⟩).2
    (by decide)

/-- C3: a MessageDelete for a cached id removes the entry, invokes the
enriched MessageDelete handler (when registered) with the cached full
message, and independently invokes the raw-delete handler (when
registered) with the minimal record; for an uncached id only the
raw-delete handler is invoked, with the minimal record. -/
theorem messageDelete_cache_dispatch (registered : Ev → Bool)
    (cache : MsgCache) (d : DeletedMsg) :
    (∀ cached cache', cachePop cache d.message_id = (some cached, cache') →
      (dispatchMessageDelete registered cache d).cacheAfter = cache'
      ∧ (∀ p ∈ cache', p.1 ≠ d.message_id)
      ∧ (dispatchMessageDelete registered cache d).calls =
          (if registered .messageDeleteRaw
            then [(Ev.messageDeleteRaw, CallData.minimal d)] else [])
          ++ (if registered .messageDelete
            then [(Ev.messageDelete, CallData.full cached)] else []))
    ∧ ((cachePop cache d.message_id).1 = none →
      dispatchMessageDelete registered cache d =
        { cacheAfter := cache
          replies := []
          commandInvoked := false
          calls := if registered .messageDeleteRaw
            then [(Ev.messageDeleteRaw, CallData.minimal d)] else [] }) := by
  constructor
  · intro cached cache' hpop
    refine ⟨by simp [dispatchMessageDelete, hpop], ?_,
      by simp [dispatchMessageDelete, hpop]⟩
    intro p hp
    unfold cachePop at hpop
    split at hpop
    · cases hpop
      simp only [List.mem_filter, bne_iff_ne, ne_eq, decide_eq_true_eq]
        at hp
      exact hp.2
    · cases hpop
  · intro hnone
    unfold dispatchMessageDelete
    rcases h : cachePop cache d.message_id with ⟨v, c'⟩
    rw [h] at hnone
    simp only at hnone
    subst hnone
    rfl

theorem messageDelete_cache_dispatch_witness :
    (dispatchMessageDelete (fun _ => true)
        [("m1", ⟨"m1", "c1", "hi", none, none⟩)] ⟨"m1", "c1"⟩).cacheAfter = []
    ∧ (∀ p ∈ ([] : MsgCache), p.1 ≠ "m1")
    ∧ (dispatchMessageDelete (fun _ => true)
        [("m1", ⟨"m1", "c1", "hi", none, none⟩)] ⟨"m1", "c1"⟩).calls =
        (if (fun (_ : Ev) => true) Ev.messageDeleteRaw
          then [(Ev.messageDeleteRaw, CallData.minimal ⟨"m1", "c1"⟩)] else [])
        ++ (if (fun (_ : Ev) => true) Ev.messageDelete
          then [(Ev.messageDelete,
            CallData.full ⟨"m1", "c1", "hi", none, none⟩)] else []) :=
  (messageDelete_cache_dispatch (fun _ => true)
    [("m1", ⟨"m1", "c1", "hi", none, none⟩)] ⟨"m1", "c1"⟩).1
    ⟨"m1", "c1", "hi", none, none⟩ [] (by decide)

/-- The gateway opcodes of `consts::opcode::OpCode` consumed by
`WsManager::connect`. -/
inductive OpCode
  | Dispatch
  | Hello
  | Heartbeat
  | Identify
  | Resume
  | Reconnect
  | InvalidSession
deriving DecidableEq, Repr

/-- A parsed gateway frame (`ws::payload::Payload`): the opcode, the
optional Dispatch sequence number, the optional Dispatch event-type
name, and — for Hello — the `heartbeat_interval` read from the body
(`payload.data["heartbeat_interval"].as_u64()`). -/
structure Payload where
  operation_code : OpCode
  sequence : Option Nat
  type_name : Option String
  heartbeat_interval : Option Nat
deriving DecidableEq, Repr

/-- An inbound websocket message as matched by `connect`. -/
inductive InFrame
  | text (body : String)
  | binary
  | close
deriving DecidableEq, Repr

/-- The result of one `socket.next().await` read: a frame
(`Some(Ok(..))`), a transport error (`Some(Err(..))`), or stream end
(`None`). -/
inductive ReadResult
  | frame (f : InFrame)
  | err
  | closed
deriving DecidableEq, Repr

/-- An outbound gateway frame.  Modelled from the spec where the code
leaves `src/`: the `consts::payloads` constructors are not under
`src/`; per the spec an Identify frame carries the token and the
intents, a Heartbeat frame carries a sequence number, and a Resume
frame carries the token, the session id and the sequence. -/
inductive OutFrame
  | identify (token : String) (intents : Nat)
  | heartbeat (seq : Nat)
  | resume (token : String) (session_id : String) (seq : Nat)
deriving DecidableEq, Repr

/-- Observable effects of the handshake phase: the intervals of the
heartbeat tasks spawned and the frames sent. -/
structure HandshakeEffects where
  heartbeatTasks : List Nat
  sent : List OutFrame
deriving DecidableEq, Repr

/-- Outcome of the handshake phase of `WsManager::connect`: a fatal
panic (spawning nothing, sending nothing), or continuation into the
read loop with the recorded effects. -/
inductive HandshakeOutcome
  | fatal (reason : String)
  | proceed (effects : HandshakeEffects)
deriving DecidableEq, Repr

/-- The handshake phase of `WsManager::connect` (the `if let` on the
first socket read): a text frame is parsed (`Payload::parse`, supplied
as the external decoder `parse`); on opcode Hello one heartbeat task is
spawned at the interval read from the body and one Identify frame is
sent; any other opcode panics; a first read that is not a well-formed
text frame skips the whole block and the read loop is entered with no
handshake effects. -/
def connectHandshake (parse : String → Option Payload) (token : String)
    (intents : Nat) (first : ReadResult) : HandshakeOutcome :=
  match first with
  | .frame (.text body) =>
    match parse body with
    | none => .fatal "Failed to parse json"
    | some payload =>
      match payload.operation_code with
      | .Hello =>
        match payload.heartbeat_interval with
        | none => .fatal "heartbeat_interval missing"
        | some ms => .proceed ⟨[ms], [.identify token intents]⟩
      | _ => .fatal "Unknown event received when attempting to handshake"
  | _ => .proceed ⟨[], []⟩

/-- C4: a first frame parsing to opcode Hello spawns exactly one
heartbeat task at the interval read from the body and sends exactly one
Identify frame carrying the token and intents; a first frame with any
other opcode is a fatal handshake failure, with no heartbeat task and
no Identify. -/
theorem handshake_hello_else_fatal
    (parse : String → Option Payload) (token : String) (intents : Nat)
    (body : String) (payload : Payload)
    (hp : parse body = some payload) :
    (∀ ms, payload.operation_code = .Hello →
      payload.heartbeat_interval = some ms →
      connectHandshake parse token intents (.frame (.text body))
        = .proceed ⟨[ms], [.identify token intents]⟩)
    ∧ (payload.operation_code ≠ .Hello →
      connectHandshake parse token intents (.frame (.text body))
        = .fatal "Unknown event received when attempting to handshake") := by
  constructor
  · intro ms hop hint
    simp [connectHandshake, hp, hop, hint]
  · intro hop
    cases h : payload.operation_code
    all_goals simp_all [connectHandshake]

theorem handshake_hello_else_fatal_witness :
    connectHandshake (fun _ => some ⟨.Hello, none, none, some 41250⟩)
        "tok" 513 (.frame (.text "hello-frame"))
      = .proceed ⟨[41250], [.identify "tok" 513]⟩ :=
  (handshake_hello_else_fatal (fun _ => some ⟨.Hello, none, none, some 41250⟩)
    "tok" 513 "hello-frame" ⟨.Hello, none, none, some 41250⟩ rfl).1
    41250 rfl rfl

/-- C10: a first read that is not a well-formed text frame (binary
frame, close frame, transport error, or stream end) performs no
handshake validation: no fatal error, no heartbeat task, no Identify —
the read loop is entered directly. -/
theorem connect_nontext_first_read_skips_handshake
    (parse : String → Option Payload) (token : String) (intents : Nat) :
    connectHandshake parse token intents (.frame .binary)
        = .proceed ⟨[], []⟩
    ∧ connectHandshake parse token intents (.frame .close)
        = .proceed ⟨[], []⟩
    ∧ connectHandshake parse token intents .err = .proceed ⟨[], []⟩
    ∧ connectHandshake parse token intents .closed = .proceed ⟨[], []⟩ :=
  ⟨rfl, rfl, rfl, rfl⟩

/-- One observable action of the heartbeat task: sending a Heartbeat
frame or sleeping for the interval. -/
inductive HBAction
  | send (seq : Nat)
  | sleep (interval : Nat)
deriving DecidableEq, Repr

/-- One iteration of the loop in `WsManager::heartbeat_start`: send a
Heartbeat frame carrying the local `last_sequence`, sleep for the
interval, increment the local counter. -/
def heartbeatIter (interval : Nat) (last : Nat) : List HBAction × Nat :=
  ([.send last, .sleep interval], last + 1)

/-- The actions of the first `k` iterations of the heartbeat loop
starting from local counter `last`. -/
def heartbeatRun (interval : Nat) : Nat → Nat → List HBAction
  | 0, _ => []
  | k + 1, last =>
    (heartbeatIter interval last).1
      ++ heartbeatRun interval k (heartbeatIter interval last).2

/-- The actions of the first `k` iterations of
`WsManager::heartbeat_start`, whose local `last_sequence` starts at 0. -/
def heartbeatActions (interval k : Nat) : List HBAction :=
  heartbeatRun interval k 0

/-- The sequence numbers carried by the Heartbeat frames of an action
list, in send order. -/
def sentSeqs : List HBAction → List Nat
  | [] => []
  | .send s :: rest => s :: sentSeqs rest
  | .sleep _ :: rest => sentSeqs rest

/-- C5 counterexample: the heartbeat task does not carry the shared
sequence counter — for the shared-counter history constantly 5, the
first heartbeat carries 0, not 5.  (`σ i` is the shared counter's value
observed at the `i`-th heartbeat.) -/
theorem heartbeat_not_shared_counter :
    ¬ (∀ σ : Nat → Nat, ∀ i s,
        (sentSeqs (heartbeatActions 1000 2)).get? i = some s → s = σ i) := by
  intro h
  have h0 : (sentSeqs (heartbeatActions 1000 2)).get? 0 = some 0 := by decide
  have := h (fun _ => 5) 0 0 h0
  exact absurd this (by decide)

/-- `List.get?` steps over two leading cons cells. -/
theorem getTwoCons {α : Type} (a b : α) (l : List α) (n : Nat) :
    (a :: b :: l).get? (n + 2) = l.get? n := rfl

/-- C5 amended: each Heartbeat frame carries the task's local counter —
the `i`-th heartbeat carries `i` (starting at 0), independent of the
shared sequence counter — so the carried values are monotonically
increasing, and each send is followed by a sleep for the interval. -/
theorem heartbeat_local_counter_monotone (interval k : Nat) :
    sentSeqs (heartbeatActions interval k) = List.range k
    ∧ ∀ i < k,
      (heartbeatActions interval k).get? (2 * i) = some (.send i)
      ∧ (heartbeatActions interval k).get? (2 * i + 1)
          = some (.sleep interval) := by
  have key : ∀ (n last : Nat),
      sentSeqs (heartbeatRun interval n last) = List.range' last n
      ∧ ∀ i < n,
        (heartbeatRun interval n last).get? (2 * i) = some (.send (last + i))
        ∧ (heartbeatRun interval n last).get? (2 * i + 1)
            = some (.sleep interval) := by
    intro n
    induction n with
    | zero => intro last; exact ⟨rfl, by intro i hi; omega⟩
    | succ p ih =>
      intro last
      refine ⟨?_, ?_⟩
      · simpa [heartbeatRun, heartbeatIter, sentSeqs, List.range'] using
          (ih (last + 1)).1
      · intro i hi
        rcases i with _ | j
        · simp [heartbeatRun, heartbeatIter]
        · have h2 : 2 * (j + 1) = (2 * j) + 2 := by ring
          have h3 : 2 * (j + 1) + 1 = (2 * j + 1) + 2 := by ring
          have hrun : heartbeatRun interval (p + 1) last
              = .send last :: .sleep interval
                :: heartbeatRun interval p (last + 1) := rfl
          have hj := (ih (last + 1)).2 j (by omega)
          constructor
          · rw [h2, hrun, getTwoCons]
            rw [show last + (j + 1) = last + 1 + j by omega]
            exact hj.1
          · rw [h3, hrun, getTwoCons]
            exact hj.2
  have h := key k 0
  refine ⟨?_, ?_⟩
  · simpa [heartbeatActions, List.range_eq_range'] using h.1
  · intro i hi
    simpa [heartbeatActions] using h.2 i hi

theorem heartbeat_local_counter_monotone_witness :
    sentSeqs (heartbeatActions 41250 3) = List.range 3
    ∧ ∀ i < 3,
      (heartbeatActions 41250 3).get? (2 * i) = some (.send i)
      ∧ (heartbeatActions 41250 3).get? (2 * i + 1)
          = some (.sleep 41250) :=
  heartbeat_local_counter_monotone 41250 3

/-- The process-wide session globals read by `WsManager::reconnect`:
`RESUME_GATEWAY_URL`, `TOKEN` and `SESSION_ID` (declared in the client
module; all `Option`, unwrapped fatally by `reconnect`). -/
structure SessionGlobals where
  resume_gateway_url : Option String
  token : Option String
  session_id : Option String
deriving DecidableEq, Repr

/-- Observable effects of `WsManager::reconnect`: the URLs connections
are opened to and the frames sent on the new connection. -/
structure ReconnectEffects where
  connectionsOpened : List String
  sent : List OutFrame
deriving DecidableEq, Repr

/-- `WsManager::reconnect(seq)`: read the stored resume URL, token and
session id (fatal unwrap when absent, embedded as `none`), read the
shared sequence counter, open one connection to the resume URL and send
one Resume frame carrying the token, the session id and the sequence. -/
def reconnect (st : SessionGlobals) (seq : Nat) : Option ReconnectEffects :=
  match st.resume_gateway_url, st.token, st.session_id with
  | some url, some token, some sid =>
    some ⟨[url], [.resume token sid seq]⟩
  | _, _, _ => none

/-- C6: with a stored resume URL, token and session id, reconnect opens
exactly one connection, to the stored resume URL, and sends exactly one
Resume frame carrying the token, the session id and the last recorded
sequence. -/
theorem reconnect_one_resume (st : SessionGlobals) (seq : Nat)
    (url token sid : String)
    (hu : st.resume_gateway_url = some url)
    (ht : st.token = some token)
    (hs : st.session_id = some sid) :
    reconnect st seq = some ⟨[url], [.resume token sid seq]⟩ := by
  simp [reconnect, hu, ht, hs]

theorem reconnect_one_resume_witness :
    reconnect ⟨some "wss://resume.example", some "tok", some "sid"⟩ 42
      = some ⟨["wss://resume.example"], [.resume "tok" "sid" 42]⟩ :=
  reconnect_one_resume ⟨some "wss://resume.example", some "tok", some "sid"⟩
    42 "wss://resume.example" "tok" "sid" rfl rfl rfl

/-- The read loop's sequence update on a Dispatch frame
(`*self.sequence.lock().await = payload.sequence.unwrap_or(0)`): the
new shared counter value, ignoring the previous one. -/
def dispatchSeqUpdate (_current : Nat) (s : Option Nat) : Nat :=
  s.getD 0

/-- The shared sequence counter after the read loop processes a list of
Dispatch-frame sequence fields in arrival order, starting from `init`. -/
def runSeq (init : Nat) (frames : List (Option Nat)) : Nat :=
  frames.foldl dispatchSeqUpdate init

/-- `runSeq` over all-present frames yields the last sequence. -/
theorem runSeq_some_getLast (init : Nat) (l : List Nat) (h : l ≠ []) :
    runSeq init (l.map some) = l.getLast h := by
  induction l generalizing init with
  | nil => exact absurd rfl h
  | cons a t ih =>
    cases t with
    | nil => rfl
    | cons b t' =>
      rw [List.getLast_cons (by simp)]
      exact ih init (by simp)

/-- In a strictly increasing list every element is at most the last. -/
theorem chain_le_getLast (l : List Nat) (hc : List.Chain' (· < ·) l)
    (h : l ≠ []) : ∀ x ∈ l, x ≤ l.getLast h := by
  induction l with
  | nil => exact absurd rfl h
  | cons a t ih =>
    intro x hx
    cases t with
    | nil =>
      simp only [List.mem_singleton] at hx
      simp [hx, List.getLast_singleton]
    | cons b t' =>
      rw [List.getLast_cons (by simp)]
      rcases List.mem_cons.mp hx with hxa | hxt
      · subst hxa
        have hab : x < b := (List.chain'_cons.mp hc).1
        have hb : b ≤ (b :: t').getLast (by simp) :=
          ih (List.chain'_cons.mp hc).2 (by simp) b (by simp)
        omega
      · exact ih (List.chain'_cons.mp hc).2 (by simp) x hxt

/-- C7: for Dispatch frames with present, strictly increasing sequence
numbers processed in arrival order, after each frame the shared counter
is the maximum sequence seen so far: it is one of the sequences seen
and every sequence seen is at most it. -/
theorem dispatch_seq_tracks_max (init : Nat) (l : List Nat)
    (hchain : List.Chain' (· < ·) l) (n : Nat) (hn : 0 < n)
    (hle : n ≤ l.length) :
    runSeq init ((l.take n).map some) ∈ l.take n
    ∧ ∀ s ∈ l.take n, s ≤ runSeq init ((l.take n).map some) := by
  have hne : l.take n ≠ [] := by
    intro h
    have hlen := congrArg List.length h
    rw [List.length_take] at hlen
    simp only [List.length_nil] at hlen
    rcases Nat.min_eq_zero_iff.mp hlen with h0 | h0 <;> omega
  have hc : List.Chain' (· < ·) (l.take n) := List.Chain'.take hchain n
  rw [runSeq_some_getLast init (l.take n) hne]
  exact ⟨List.getLast_mem hne, chain_le_getLast (l.take n) hc hne⟩

theorem dispatch_seq_tracks_max_witness :
    runSeq 0 (([1, 3, 7].take 2).map some) ∈ [1, 3, 7].take 2
    ∧ ∀ s ∈ [1, 3, 7].take 2, s ≤ runSeq 0 (([1, 3, 7].take 2).map some) :=
  dispatch_seq_tracks_max 0 [1, 3, 7] (by norm_num [List.chain'_cons]) 2
    (by decide) (by decide)

/-- C9: a Dispatch frame whose sequence field is absent sets the shared
counter to 0, strictly below any positive previously recorded value. -/
theorem dispatch_seq_absent_resets (c : Nat) :
    dispatchSeqUpdate c none = 0
    ∧ (0 < c → dispatchSeqUpdate c none < c) := by
  exact ⟨rfl, fun h => h⟩

theorem dispatch_seq_absent_resets_witness :
    dispatchSeqUpdate 5 none = 0
    ∧ (0 < 5 → dispatchSeqUpdate 5 none < 5) :=
  dispatch_seq_absent_resets 5

end Descord
